import Mathlib

/-!
# Verification of `valmid` — decode-validate-dispatch HTTP middleware

Shallow embedding of the `valmid` Go package (`valmid.go`) and of the
contracts of its two collaborators, the request binder (field-source
resolution, defaults, required-ness, body binding) and the validation
engine (declarative rules evaluated over the assembled structure with
aggregation of all violations).

The pipeline orchestration (`Middleware`, `handleError`, `Get`,
`SetErrorHandler`/`getErrorHandler`) is translated directly from the
source.  The binder and the validation engine are third-party libraries
whose code is not part of this repository; their behaviour is modelled
from the specification (sections 4.1-4.3), and each such definition is
marked `Modelled from the spec`.
-/

set_option autoImplicit false

namespace Valmid

/-- A single `(source-kind, key)` pair of a field's source declaration,
e.g. `query=token`.  The kind is kept as a raw string so that malformed
(unrecognized) kinds are representable, as construction must reject them. -/
structure Directive where
  kind : String
  key : String
deriving DecidableEq, Repr

/-- Scalar target types a non-body field converts into. -/
inductive SKind where
  | sInt
  | sStr
  | sStrList
deriving DecidableEq, Repr

/-- Modelled from the spec (4.3, validation-rule mini-language): the named
validation rules needed to reproduce the declared behaviours: `required`,
length/numeric bounds (`min`, `gt`), `oneof`, and element-wise checks
(`dive`). -/
inductive Rule where
  | required
  | min (n : Nat)
  | gt (n : Nat)
  | oneof (vals : List String)
  | dive (inner : Rule)
deriving DecidableEq, Repr

/-- The rule's name, used in the violation detail. -/
def Rule.name : Rule → String
  | .required => "required"
  | .min n => "min=" ++ toString n
  | .gt n => "gt=" ++ toString n
  | .oneof _ => "oneof"
  | .dive inner => "dive," ++ inner.name

/-- A field of the nested JSON-body structure: its Go name, the JSON key it
binds from, and its validation rules (spec 3: the nested body is a structure
with its own validation declarations; its fields are textual). -/
structure BodyFieldDecl where
  name : String
  jsonKey : String
  rules : List Rule
deriving Repr

/-- What a field binds into: a scalar of some type, or the nested JSON-body
structure (`in:"body=json"` binds the entire nested struct). -/
inductive FKind where
  | scalar (sk : SKind)
  | bodyJson (bodyFields : List BodyFieldDecl)
deriving Repr

/-- One declared field of an Input Shape: name, ordered candidate sources,
`required`/`default` flags, target kind and validation rules. -/
structure FieldDecl where
  name : String
  directives : List Directive
  required : Bool
  default? : Option String
  kind : FKind
  rules : List Rule
deriving Repr

/-- An Input Shape: the Go struct type `T`.  `name` stands for the type's
identity (the dynamic type checked by `Get`'s assertion `.(*T)`). -/
structure ShapeDecl where
  name : String
  fields : List FieldDecl
deriving Repr

/-- A concrete field value after resolution and conversion.  The nested
body is an optional (pointer) structure of textual fields. -/
inductive Value where
  | vInt (n : Int)
  | vStr (s : String)
  | vStrList (l : List String)
  | vBody (b : Option (List (String × String)))
deriving DecidableEq, Repr

/-- An Assembled Instance: the populated fields of the shape, in
declaration order. -/
abbrev Instance := List (String × Value)

/-- The request body as the binder sees it: absent, syntactically
malformed JSON, or a parsed JSON object of textual fields. -/
inductive BodyState where
  | noBody
  | malformed
  | json (obj : List (String × String))
deriving DecidableEq, Repr

/-- An HTTP request, with the parts the pipeline reads, plus the scoped
execution context slot (`context.WithValue` under the single input key):
`none` when nothing was attached, otherwise the attached shape identity
and instance (the stored `*T`). -/
structure Request where
  pathParams : List (String × String)
  queryParams : List (String × String)
  headers : List (String × String)
  formFields : List (String × String)
  body : BodyState
  ctx : Option (String × Instance)
deriving DecidableEq, Repr

/-- A Binding Error: required field unresolvable, raw value fails
conversion, or malformed body — each names the offending field. -/
inductive BindErr where
  | requiredMissing (field : String)
  | convertFail (field : String) (raw : String)
  | malformedBody (field : String)
deriving DecidableEq, Repr

/-- The error handed to the error handler: a Binding Error from assembly,
or a Validation Error aggregating the violated rules as
`(field path, rule name)` pairs. -/
inductive Err where
  | binding (e : BindErr)
  | validation (violations : List (String × String))
deriving DecidableEq, Repr

/-- Error handlers are identified abstractly; the pipeline only selects
and invokes one, so its identity is all the model needs. -/
abbrev ErrorHandlerFunc := Nat

/-- The Configuration Registry state: the current process-wide default
error handler (`defaultErrorHandler` in the source, guarded by `mu`). -/
structure Config where
  defaultErrorHandler : ErrorHandlerFunc
deriving DecidableEq, Repr

/-- Source `getErrorHandler`: reads the registry's current default handler. -/
def getErrorHandler (cfg : Config) : ErrorHandlerFunc :=
  cfg.defaultErrorHandler

/-- Per-middleware options: the optional per-construction error-handler
override (`WithErrorHandler`); `none` means use the registry default. -/
structure Options where
  errorHandler : Option ErrorHandlerFunc
deriving DecidableEq, Repr

/-- All values carried by a multi-valued source (query / form) for a key,
in request order. -/
def lookupAll (ps : List (String × String)) (k : String) : List String :=
  ps.filterMap fun p => if p.1 = k then some p.2 else none

/-- Modelled from the spec (4.1, Field Source Resolver): one source's
yield for a request.  `some vs` means the source is present (an empty
string still counts as present: presence is the key appearing in the
request at all); `none` means the source is entirely absent.  Unrecognized
kinds never yield (construction rejects them before any request runs). -/
def srcLookup (r : Request) (d : Directive) : Option (List String) :=
  if d.kind = "path" then (r.pathParams.lookup d.key).map fun v => [v]
  else if d.kind = "query" then
    let vs := lookupAll r.queryParams d.key
    if vs.isEmpty then none else some vs
  else if d.kind = "header" then (r.headers.lookup d.key).map fun v => [v]
  else if d.kind = "form" then
    let vs := lookupAll r.formFields d.key
    if vs.isEmpty then none else some vs
  else none

/-- Modelled from the spec (4.1): try each `(kind, key)` pair in declared
order; the first source that yields any value wins and no further source
is tried; absence falls through to the next candidate. -/
def resolve (r : Request) : List Directive → Option (List String)
  | [] => none
  | d :: ds =>
    match srcLookup r d with
    | some vs => some vs
    | none => resolve r ds

/-- The zero value of a scalar target type. -/
def zeroScalar : SKind → Value
  | .sInt => .vInt 0
  | .sStr => .vStr ""
  | .sStrList => .vStrList []

/-- The zero value of a field's target kind (a nil pointer for the body). -/
def zeroValue : FKind → Value
  | .scalar sk => zeroScalar sk
  | .bodyJson _ => .vBody none

/-- The numeric value of a decimal digit character, `none` otherwise. -/
def parseDigit (c : Char) : Option Nat :=
  if c = '0' then some 0
  else if c = '1' then some 1
  else if c = '2' then some 2
  else if c = '3' then some 3
  else if c = '4' then some 4
  else if c = '5' then some 5
  else if c = '6' then some 6
  else if c = '7' then some 7
  else if c = '8' then some 8
  else if c = '9' then some 9
  else none

/-- Accumulate decimal digits left to right; any non-digit fails. -/
def parseNatAux : List Char → Nat → Option Nat
  | [], acc => some acc
  | c :: cs, acc =>
    match parseDigit c with
    | some d => parseNatAux cs (acc * 10 + d)
    | none => none

/-- Modelled from the spec (1, excluded collaborators): the standard
text-to-integer conversion the binder delegates to — an optional minus
sign followed by at least one decimal digit. -/
def parseInt? (s : String) : Option Int :=
  match s.data with
  | [] => none
  | '-' :: cs =>
    match cs with
    | [] => none
    | _ => (parseNatAux cs 0).map fun n => -(n : Int)
  | cs => (parseNatAux cs 0).map fun n => (n : Int)

/-- Modelled from the spec (4.2, step 3): convert the raw textual values of
the winning source to the field's declared type; a conversion failure is a
Binding Error naming the field and the offending raw value. -/
def convertScalar (sk : SKind) (field : String) (vals : List String) :
    Except BindErr Value :=
  match sk with
  | .sInt =>
    let raw := vals.headD ""
    match parseInt? raw with
    | some n => .ok (.vInt n)
    | none => .error (.convertFail field raw)
  | .sStr => .ok (.vStr (vals.headD ""))
  | .sStrList => .ok (.vStrList vals)

/-- The string bound for a body field from the parsed JSON object (missing
key leaves the field at its zero value). -/
def strLookup (obj : List (String × String)) (k : String) : String :=
  (obj.lookup k).getD ""

/-- Modelled from the spec (4.2, Input Assembler, per-field step): a
JSON-body field deserializes the body (malformed body is a Binding Error
naming the body field, absent body leaves the pointer nil); any other
field resolves its sources, falling back to the `default` literal, then to
a required-missing Binding Error, then to the zero value. -/
def assembleField (r : Request) (f : FieldDecl) : Except BindErr Value :=
  match f.kind with
  | .bodyJson bds =>
    match r.body with
    | .malformed => .error (.malformedBody f.name)
    | .noBody => .ok (.vBody none)
    | .json obj => .ok (.vBody (some (bds.map fun bd => (bd.name, strLookup obj bd.jsonKey))))
  | .scalar sk =>
    match resolve r f.directives with
    | some vals => convertScalar sk f.name vals
    | none =>
      match f.default? with
      | some d => convertScalar sk f.name [d]
      | none =>
        if f.required then .error (.requiredMissing f.name)
        else .ok (zeroScalar sk)

/-- Modelled from the spec (4.2): assemble every declared field in order,
failing fast on the first Binding Error. -/
def assembleFields (r : Request) : List FieldDecl → Except BindErr Instance
  | [] => .ok []
  | f :: fs =>
    match assembleField r f with
    | .error e => .error e
    | .ok v =>
      match assembleFields r fs with
      | .error e => .error e
      | .ok rest => .ok ((f.name, v) :: rest)

/-- Modelled from the spec (4.2): `assemble(ShapeDeclaration, request) →
(instance, error)` — the binder's `core.Decode(r)`. -/
def assemble (s : ShapeDecl) (r : Request) : Except BindErr Instance :=
  assembleFields r s.fields

/-- Modelled from the spec (4.3): whether a single rule passes on a value.
`required` fails on the type's zero value (empty string/list, zero int,
nil body pointer); bounds compare numeric value or length; `dive` applies
the inner rule to every element of a sequence. -/
def ruleOk : Rule → Value → Bool
  | .required, .vInt n => n != 0
  | .required, .vStr s => !(s == "")
  | .required, .vStrList l => !l.isEmpty
  | .required, .vBody b => b.isSome
  | .min n, .vInt i => decide ((n : Int) ≤ i)
  | .min n, .vStr s => decide (n ≤ s.length)
  | .min n, .vStrList l => decide (n ≤ l.length)
  | .gt n, .vInt i => decide ((n : Int) < i)
  | .gt n, .vStr s => decide (n < s.length)
  | .gt n, .vStrList l => decide (n < l.length)
  | .min _, .vBody _ => true
  | .gt _, .vBody _ => true
  | .oneof vals, .vStr s => vals.contains s
  | .oneof _, _ => true
  | .dive inner, .vStrList l => l.all fun e => ruleOk inner (.vStr e)
  | .dive _, _ => true

/-- Modelled from the spec (4.3): the violations one rule contributes on a
value at a field path.  An element-wise (`dive`) rule on a sequence
contributes one violation per failing element, with the element's index in
the path; any other failing rule contributes `(path, rule name)`. -/
def ruleViolations (path : String) (ru : Rule) (v : Value) :
    List (String × String) :=
  match ru, v with
  | .dive inner, .vStrList l =>
    (List.range l.length).filterMap fun i =>
      if ruleOk inner (.vStr (l.getD i "")) then none
      else some (path ++ "[" ++ toString i ++ "]", inner.name)
  | _, _ => if ruleOk ru v then [] else [(path, ru.name)]

/-- The assembled instance's value for a field (fields are stored in
declaration order; a name missing from the instance reads as zero). -/
def lookupVal (inst : Instance) (n : String) : Value :=
  (inst.lookup n).getD (.vStr "")

/-- Modelled from the spec (4.3): all violations a single field
contributes — its own rules on its value, and, for a non-nil nested body,
every body field's rules on the bound strings, with dotted field paths. -/
def fieldViolations (f : FieldDecl) (v : Value) : List (String × String) :=
  (f.rules.flatMap fun ru => ruleViolations f.name ru v) ++
    match f.kind, v with
    | .bodyJson bds, .vBody (some bvals) =>
      bds.flatMap fun bd =>
        bd.rules.flatMap fun ru =>
          ruleViolations (f.name ++ "." ++ bd.name) ru (.vStr (strLookup bvals bd.name))
    | _, _ => []

/-- Modelled from the spec (4.3, Validation Engine): apply every rule
declared on every field, recursing into the nested body, and aggregate all
violations across the whole structure; the instance is valid iff the list
is empty — the engine's `v.Struct(input)`. -/
def validate (s : ShapeDecl) (inst : Instance) : List (String × String) :=
  s.fields.flatMap fun f => fieldViolations f (lookupVal inst f.name)

/-- What the middleware's per-request handler did: invoked the wrapped
next handler with the (context-augmented) request, or invoked an error
handler with the original request and the error. -/
inductive Event where
  | nextCall (r : Request)
  | errCall (h : ErrorHandlerFunc) (r : Request) (e : Err)
deriving DecidableEq, Repr

/-- Source `handleError` (valmid.go): the per-construction override wins when
supplied; otherwise the registry's current default handler is read, at the
moment of the failure. -/
def handleError (o : Options) (cfg : Config) : ErrorHandlerFunc :=
  match o.errorHandler with
  | some h => h
  | none => getErrorHandler cfg

/-- Attach the validated instance to the request's scoped context under
the shape's identity (`context.WithValue(r.Context(), httpin.Input, input)`). -/
def attach (r : Request) (shapeName : String) (inst : Instance) : Request :=
  { r with ctx := some (shapeName, inst) }

/-- The per-request body of `Middleware` (valmid.go): decode; on error,
hand a Binding Error to the active handler and stop.  Validate; on
violations, hand a Validation Error to the active handler and stop.  On
success, attach the instance to the context and invoke the next handler
with the augmented request.  The registry state `cfg` is the state at the
moment the request is processed, not at construction. -/
def serve (s : ShapeDecl) (o : Options) (cfg : Config) (r : Request) :
    List Event :=
  match assemble s r with
  | .error err => [.errCall (handleError o cfg) r (.binding err)]
  | .ok input =>
    let viols := validate s input
    if viols = [] then [.nextCall (attach r s.name input)]
    else [.errCall (handleError o cfg) r (.validation viols)]

/-- The source kinds the binder recognizes (doc: path, query, header,
form, body). -/
def validKind (k : String) : Bool :=
  k = "path" || k = "query" || k = "header" || k = "form" || k = "body"

/-- Whether every directive of every field carries a recognized kind. -/
def shapeWellFormed (s : ShapeDecl) : Bool :=
  s.fields.all fun f => f.directives.all fun d => validKind d.kind

/-- Modelled from the spec (4.4) and the binder's documented contract:
`httpin.New(t)` fails when the shape's declarations are malformed (an
unrecognized source kind). -/
def httpinNew (s : ShapeDecl) : Except String ShapeDecl :=
  if shapeWellFormed s then .ok s else .error "unknown directive"

/-- Source `Middleware[T]` (valmid.go) at construction time: build the core once;
a construction failure is a panic (modelled as `.error`, carrying the
panic message), never a per-request error.  On success the result is the
reusable per-request handler, a function of the registry state and the
request. -/
def MiddlewareNew (s : ShapeDecl) (o : Options) :
    Except String (Config → Request → List Event) :=
  match httpinNew s with
  | .ok core => .ok fun cfg r => serve core o cfg r
  | .error msg => .error ("valmid: failed to create httpin core: " ++ msg)

/-- The zero value of the shape `T`: every field at its kind's zero. -/
def zeroInstance (s : ShapeDecl) : Instance :=
  s.fields.map fun f => (f.name, zeroValue f.kind)

/-- Source `Get[T]` (valmid.go): read the context value under the input key; the
type assertion `.(*T)` succeeds only when the attached value is an
instance of this very shape, otherwise the zero value of `T` is returned. -/
def Get (s : ShapeDecl) (r : Request) : Instance :=
  match r.ctx with
  | some (n, v) => if n = s.name then v else zeroInstance s
  | none => zeroInstance s

/-- Source `Get` in state-threading form: the Go function receives the request
and returns the value; its body performs no write, so the returned
request is the argument unchanged. -/
def GetM (s : ShapeDecl) (r : Request) : Instance × Request :=
  (Get s r, r)

/-! ## Concrete fixtures

The input shape and requests of the repository's test suite
(`valmid_test.go`: `Input`, `Body`, `BadInput` and the requests of
`TestMiddleware`), used to instantiate the theorems below at concrete
inputs. -/

/-- The nested body structure `Body` of the test suite: field `Name`,
bound from JSON key `name`, rules `required,min=3`. -/
def testBodyDecls : List BodyFieldDecl :=
  [⟨"Name", "name", [.required, .min 3]⟩]

/-- Field `ID int` with tag `in:"path=id" validate:"gt=0"`. -/
def fldID : FieldDecl :=
  ⟨"ID", [⟨"path", "id"⟩], false, none, .scalar .sInt, [.gt 0]⟩

/-- Field `Page int` with tag `in:"query=page;default=1"`. -/
def fldPage : FieldDecl :=
  ⟨"Page", [⟨"query", "page"⟩], false, some "1", .scalar .sInt, []⟩

/-- Field `Token string` with tag `in:"header=X-Token" validate:"required"`. -/
def fldToken : FieldDecl :=
  ⟨"Token", [⟨"header", "X-Token"⟩], false, none, .scalar .sStr, [.required]⟩

/-- Field `Body *Body` with tag `in:"body=json"`. -/
def fldBody : FieldDecl :=
  ⟨"Body", [⟨"body", "json"⟩], false, none, .bodyJson testBodyDecls, []⟩

/-- Field `Field string` with tag `in:"form=field"`. -/
def fldField : FieldDecl :=
  ⟨"Field", [⟨"form", "field"⟩], false, none, .scalar .sStr, []⟩

/-- The shape `Input` of the test suite. -/
def testShape : ShapeDecl :=
  ⟨"Input", [fldID, fldPage, fldToken, fldBody, fldField]⟩

/-- The shape `BadInput` of the test suite: a field with the unrecognized
source kind `unknown`. -/
def badShape : ShapeDecl :=
  ⟨"BadInput", [⟨"Field", [⟨"unknown", "bad"⟩], false, none, .scalar .sStr, []⟩]⟩

/-- The request of `TestMiddleware`: `POST /users/42?page=2` with header
`X-Token: secret` and JSON body `{"name":"John"}`; nothing attached yet. -/
def testReq : Request :=
  ⟨[("id", "42")], [("page", "2")], [("X-Token", "secret")], [],
   .json [("name", "John")], none⟩

/-- The instance the test request assembles to:
`ID=42, Page=2, Token="secret", Body.Name="John", Field=""`. -/
def testInst : Instance :=
  [("ID", .vInt 42), ("Page", .vInt 2), ("Token", .vStr "secret"),
   ("Body", .vBody (some [("Name", "John")])), ("Field", .vStr "")]

/-- The request of `TestMiddleware_BindingError`: body is not JSON. -/
def reqMalformed : Request :=
  { testReq with body := .malformed }

/-- A request that assembles but violates two rules: `ID=0` (fails `gt=0`)
and body name `"Jo"` (fails `min=3`). -/
def reqInvalid : Request :=
  { testReq with pathParams := [("id", "0")], body := .json [("name", "Jo")] }

/-- What `reqInvalid` assembles to. -/
def instInvalid : Instance :=
  [("ID", .vInt 0), ("Page", .vInt 2), ("Token", .vStr "secret"),
   ("Body", .vBody (some [("Name", "Jo")])), ("Field", .vStr "")]

/-- A request whose query has `token` present but empty, and a header
fallback set (the multi-source fixture of the spec). -/
def reqEmptyTok : Request :=
  ⟨[], [("token", "")], [("X-Token", "secret")], [], .noBody, none⟩

/-- The same request with the query parameter entirely absent. -/
def reqNoTok : Request :=
  ⟨[], [], [("X-Token", "secret")], [], .noBody, none⟩

/-- A request carrying a context attachment of a different shape. -/
def reqOtherShape : Request :=
  { testReq with ctx := some ("Other", [("X", .vInt 1)]) }

/-! ## Helper lemmas (shared) -/

deriving instance DecidableEq for Except

/-- On a decode (assembly) failure the per-request handler emits exactly
one event: the active error handler invoked with the original request and
a Binding Error. -/
theorem serve_decode_error {s : ShapeDecl} {o : Options} {cfg : Config}
    {r : Request} {e : BindErr} (h : assemble s r = .error e) :
    serve s o cfg r = [.errCall (handleError o cfg) r (.binding e)] := by
  unfold serve
  rw [h]

/-- On a validation failure the per-request handler emits exactly one
event: the active error handler invoked with the original request and the
aggregated Validation Error. -/
theorem serve_validation_error {s : ShapeDecl} {o : Options} {cfg : Config}
    {r : Request} {inst : Instance} (h : assemble s r = .ok inst)
    (hv : validate s inst ≠ []) :
    serve s o cfg r =
      [.errCall (handleError o cfg) r (.validation (validate s inst))] := by
  unfold serve
  rw [h]
  simp [hv]

/-- On success the per-request handler emits exactly one event: the next
handler invoked with the context-augmented request. -/
theorem serve_ok {s : ShapeDecl} {o : Options} {cfg : Config} {r : Request}
    {inst : Instance} (h : assemble s r = .ok inst)
    (hv : validate s inst = []) :
    serve s o cfg r = [.nextCall (attach r s.name inst)] := by
  unfold serve
  rw [h]
  simp [hv]

/-- Reading a request with an empty context slot yields the zero instance. -/
theorem Get_ctx_none {s : ShapeDecl} {r : Request} (h : r.ctx = none) :
    Get s r = zeroInstance s := by
  simp [Get, h]

/-- A failing non-element-wise rule contributes its `(path, name)` pair. -/
theorem mem_ruleViolations {path : String} {ru : Rule} {v : Value}
    (hnd : ∀ i, ru ≠ Rule.dive i) (hf : ruleOk ru v = false) :
    (path, ru.name) ∈ ruleViolations path ru v := by
  cases ru with
  | dive inner => exact absurd rfl (hnd inner)
  | required => cases v <;> simp [ruleViolations, hf]
  | min n => cases v <;> simp [ruleViolations, hf]
  | gt n => cases v <;> simp [ruleViolations, hf]
  | oneof vals => cases v <;> simp [ruleViolations, hf]

/-- A failing element of a sequence under an element-wise rule contributes
its indexed `(path[i], name)` pair. -/
theorem mem_ruleViolations_dive {path : String} {inner : Rule}
    {l : List String} {i : Nat} (hi : i < l.length)
    (hf : ruleOk inner (.vStr (l.getD i "")) = false) :
    (path ++ "[" ++ toString i ++ "]", inner.name) ∈
      ruleViolations path (.dive inner) (.vStrList l) := by
  simp only [ruleViolations]
  rw [List.mem_filterMap]
  refine ⟨i, List.mem_range.mpr hi, ?_⟩
  simp only [List.getD, List.get?_eq_getElem?] at hf ⊢
  simp [hf]

/-- A violation contributed by one of the field's own rules is among the
field's violations. -/
theorem mem_fieldViolations_own {f : FieldDecl} {v : Value} {ru : Rule}
    {x : String × String} (hru : ru ∈ f.rules)
    (hx : x ∈ ruleViolations f.name ru v) : x ∈ fieldViolations f v := by
  unfold fieldViolations
  rw [List.mem_append]
  exact Or.inl (List.mem_flatMap.mpr ⟨ru, hru, hx⟩)

/-- A violation contributed by a nested-body field's rule is among the
body field's violations. -/
theorem mem_fieldViolations_body {f : FieldDecl} {bds : List BodyFieldDecl}
    {bvals : List (String × String)} {bd : BodyFieldDecl} {ru : Rule}
    {x : String × String} (hk : f.kind = .bodyJson bds)
    (hbd : bd ∈ bds) (hru : ru ∈ bd.rules)
    (hx : x ∈ ruleViolations (f.name ++ "." ++ bd.name) ru
      (.vStr (strLookup bvals bd.name))) :
    x ∈ fieldViolations f (.vBody (some bvals)) := by
  unfold fieldViolations
  rw [List.mem_append]
  refine Or.inr ?_
  rw [hk]
  exact List.mem_flatMap.mpr ⟨bd, hbd, List.mem_flatMap.mpr ⟨ru, hru, hx⟩⟩

/-- A violation of any declared field is in the aggregated list. -/
theorem mem_validate {s : ShapeDecl} {inst : Instance} {f : FieldDecl}
    {x : String × String} (hf : f ∈ s.fields)
    (hx : x ∈ fieldViolations f (lookupVal inst f.name)) :
    x ∈ validate s inst := by
  unfold validate
  exact List.mem_flatMap.mpr ⟨f, hf, hx⟩

/-- Any error-handler invocation the per-request handler performs uses the
handler selected by `handleError` from the options and the registry state
current at that moment. -/
theorem errCall_uses_handleError {s : ShapeDecl} {o : Options} {cfg : Config}
    {r rr : Request} {h : ErrorHandlerFunc} {e : Err}
    (hmem : Event.errCall h rr e ∈ serve s o cfg r) :
    h = handleError o cfg := by
  unfold serve at hmem
  cases ha : assemble s r with
  | error err =>
    rw [ha] at hmem
    simp at hmem
    exact hmem.1
  | ok inst =>
    rw [ha] at hmem
    by_cases hv : validate s inst = []
    · simp [hv] at hmem
    · simp [hv] at hmem
      exact hmem.1

/-! ## Claims -/

/-- C1: for every input shape and every request whose required fields all
resolve and convert (assembly succeeds) and whose validation rules all
pass, the middleware invokes the wrapped next handler, and `Get` on the
post-pipeline request returns exactly the assembled instance — the
resolved/converted/defaulted values. -/
theorem claim_C1_success_roundtrip (s : ShapeDecl) (o : Options)
    (cfg : Config) (r : Request) (inst : Instance)
    (hd : assemble s r = .ok inst) (hv : validate s inst = []) :
    serve s o cfg r = [.nextCall (attach r s.name inst)] ∧
      Get s (attach r s.name inst) = inst := by
  refine ⟨serve_ok hd hv, ?_⟩
  simp [Get, attach]

/-- C1 witness: the test request `POST /users/42?page=2`, header
`X-Token: secret`, body `{"name":"John"}` against the test shape reaches
the next handler, and `Get` reads back
`ID=42, Page=2, Token="secret", Body.Name="John"`. -/
theorem claim_C1_success_roundtrip_witness :
    serve testShape ⟨none⟩ ⟨0⟩ testReq
        = [.nextCall (attach testReq testShape.name testInst)] ∧
      Get testShape (attach testReq testShape.name testInst) = testInst :=
  claim_C1_success_roundtrip testShape ⟨none⟩ ⟨0⟩ testReq testInst
    (by decide) (by decide)

/-- C2: for every request on which assembly or validation fails, the
per-request handler's event list is exactly one invocation of the active
error handler — with a Binding Error on assembly failure, with the
aggregated Validation Error on validation failure — and contains no
invocation of the wrapped next handler. -/
theorem claim_C2_failure_short_circuit (s : ShapeDecl) (o : Options)
    (cfg : Config) (r : Request) :
    (∀ e, assemble s r = .error e →
      serve s o cfg r = [.errCall (handleError o cfg) r (.binding e)]) ∧
    (∀ inst, assemble s r = .ok inst → validate s inst ≠ [] →
      serve s o cfg r =
        [.errCall (handleError o cfg) r (.validation (validate s inst))]) :=
  ⟨fun _ he => serve_decode_error he,
   fun _ hi hv => serve_validation_error hi hv⟩

/-- C2 witness: the malformed-body request triggers exactly one
error-handler call with a Binding Error naming `Body`; the `ID=0` /
`"Jo"`-body request triggers exactly one error-handler call with the
aggregated Validation Error; the next handler appears in neither. -/
theorem claim_C2_failure_short_circuit_witness :
    serve testShape ⟨none⟩ ⟨7⟩ reqMalformed
        = [.errCall 7 reqMalformed (.binding (.malformedBody "Body"))] ∧
      serve testShape ⟨none⟩ ⟨7⟩ reqInvalid
        = [.errCall 7 reqInvalid
            (.validation [("ID", "gt=0"), ("Body.Name", "min=3")])] := by
  constructor
  · exact (claim_C2_failure_short_circuit testShape ⟨none⟩ ⟨7⟩
      reqMalformed).1 (.malformedBody "Body") (by decide)
  · have h := (claim_C2_failure_short_circuit testShape ⟨none⟩ ⟨7⟩
      reqInvalid).2 instInvalid (by decide) (by decide)
    exact h

/-- C3: for every failing request of a middleware built by
`MiddlewareNew`, the invoked error handler is the per-construction
override when one was supplied, and otherwise the registry's default
handler in the state passed at the moment of that request — so replacing
the global handler after construction changes which handler subsequent
failures invoke. -/
theorem claim_C3_handler_resolution (s : ShapeDecl) (o : Options)
    (mw : Config → Request → List Event) (hmw : MiddlewareNew s o = .ok mw)
    (cfg : Config) (r rr : Request) (h : ErrorHandlerFunc) (e : Err)
    (hmem : Event.errCall h rr e ∈ mw cfg r) :
    (∀ hh, o.errorHandler = some hh → h = hh) ∧
    (o.errorHandler = none → h = cfg.defaultErrorHandler) := by
  have hserve : mw cfg r = serve s o cfg r := by
    unfold MiddlewareNew httpinNew at hmw
    by_cases hws : shapeWellFormed s
    · simp [hws] at hmw
      rw [← hmw]
    · simp [hws] at hmw
  rw [hserve] at hmem
  have hh := errCall_uses_handleError hmem
  constructor
  · intro hh' hover
    rw [hh]
    simp [handleError, hover]
  · intro hnone
    rw [hh]
    simp [handleError, getErrorHandler, hnone]

/-- C3 witness: the test shape's middleware, built once with no override,
run against the malformed-body request under registry state 7 invokes
handler 7, and under registry state 9 invokes handler 9. -/
theorem claim_C3_handler_resolution_witness :
    ((Options.mk none).errorHandler = none → 7 = (Config.mk 7).defaultErrorHandler) ∧
    ((Options.mk none).errorHandler = none → 9 = (Config.mk 9).defaultErrorHandler) := by
  constructor
  · refine (claim_C3_handler_resolution testShape ⟨none⟩
      (fun cfg r => serve testShape ⟨none⟩ cfg r) rfl ⟨7⟩ reqMalformed
      reqMalformed 7 (.binding (.malformedBody "Body")) ?_).2
    show Event.errCall 7 reqMalformed (.binding (.malformedBody "Body")) ∈
      serve testShape ⟨none⟩ ⟨7⟩ reqMalformed
    rw [@serve_decode_error testShape ⟨none⟩ ⟨7⟩ reqMalformed
      (BindErr.malformedBody "Body") (by decide)]
    exact List.mem_cons_self _ _
  · refine (claim_C3_handler_resolution testShape ⟨none⟩
      (fun cfg r => serve testShape ⟨none⟩ cfg r) rfl ⟨9⟩ reqMalformed
      reqMalformed 9 (.binding (.malformedBody "Body")) ?_).2
    show Event.errCall 9 reqMalformed (.binding (.malformedBody "Body")) ∈
      serve testShape ⟨none⟩ ⟨9⟩ reqMalformed
    rw [@serve_decode_error testShape ⟨none⟩ ⟨9⟩ reqMalformed
      (BindErr.malformedBody "Body") (by decide)]
    exact List.mem_cons_self _ _

/-- C4: for every assembled instance, the aggregated Validation Error
enumerates every violated rule across the whole structure: every failing
rule on any declared field, every failing rule of any nested-body field,
and every failing element of a sequence under an element-wise rule appear
in the list handed to the error handler — not only the first violation. -/
theorem claim_C4_aggregates_all (s : ShapeDecl) (inst : Instance) :
    (∀ f ∈ s.fields, ∀ ru ∈ f.rules, (∀ i, ru ≠ Rule.dive i) →
      ruleOk ru (lookupVal inst f.name) = false →
      (f.name, ru.name) ∈ validate s inst) ∧
    (∀ f ∈ s.fields, ∀ bds, f.kind = .bodyJson bds →
      ∀ bvals, lookupVal inst f.name = .vBody (some bvals) →
      ∀ bd ∈ bds, ∀ ru ∈ bd.rules, (∀ i, ru ≠ Rule.dive i) →
      ruleOk ru (.vStr (strLookup bvals bd.name)) = false →
      (f.name ++ "." ++ bd.name, ru.name) ∈ validate s inst) ∧
    (∀ f ∈ s.fields, ∀ inner, Rule.dive inner ∈ f.rules →
      ∀ l, lookupVal inst f.name = .vStrList l →
      ∀ i, i < l.length → ruleOk inner (.vStr (l.getD i "")) = false →
      (f.name ++ "[" ++ toString i ++ "]", inner.name) ∈ validate s inst) := by
  refine ⟨?_, ?_, ?_⟩
  · intro f hf ru hru hnd hfail
    exact mem_validate hf (mem_fieldViolations_own hru (mem_ruleViolations hnd hfail))
  · intro f hf bds hk bvals hlv bd hbd ru hru hnd hfail
    refine mem_validate hf ?_
    rw [hlv]
    exact mem_fieldViolations_body hk hbd hru (mem_ruleViolations hnd hfail)
  · intro f hf inner hru l hlv i hi hfail
    refine mem_validate hf ?_
    refine mem_fieldViolations_own hru ?_
    rw [hlv]
    exact mem_ruleViolations_dive hi hfail

/-- C4 witness: on the instance assembled from the `ID=0` / `"Jo"`-body
request, both the scalar violation `(ID, gt=0)` and the nested-body
violation `(Body.Name, min=3)` are in the aggregated list. -/
theorem claim_C4_aggregates_all_witness :
    ("ID", "gt=0") ∈ validate testShape instInvalid ∧
      ("Body.Name", "min=3") ∈ validate testShape instInvalid := by
  constructor
  · refine (claim_C4_aggregates_all testShape instInvalid).1 fldID
      (List.mem_cons_self _ _) (.gt 0) (List.mem_cons_self _ _) ?_ (by decide)
    intro i hc
    cases hc
  · refine (claim_C4_aggregates_all testShape instInvalid).2.1 fldBody
      ?_ testBodyDecls rfl [("Name", "Jo")] (by decide)
      ⟨"Name", "name", [.required, .min 3]⟩ (List.mem_cons_self _ _)
      (.min 3) ?_ ?_ (by decide)
    · show fldBody ∈ [fldID, fldPage, fldToken, fldBody, fldField]
      exact List.mem_cons_of_mem _ (List.mem_cons_of_mem _
        (List.mem_cons_of_mem _ (List.mem_cons_self _ _)))
    · show Rule.min 3 ∈ [Rule.required, Rule.min 3]
      exact List.mem_cons_of_mem _ (List.mem_cons_self _ _)
    · intro i hc
      cases hc

/-- C5: for every field declared with an ordered list of candidate
sources, the first source that yields any value wins and no later source
is consulted; a source that is absent falls through to the rest; and a
query parameter that is present with an empty value still counts as
present (so a later fallback source is not consulted). -/
theorem claim_C5_first_source_wins (r : Request) (d : Directive)
    (ds : List Directive) :
    (∀ vs, srcLookup r d = some vs → resolve r (d :: ds) = some vs) ∧
    (srcLookup r d = none → resolve r (d :: ds) = resolve r ds) ∧
    (∀ k v, (k, v) ∈ r.queryParams →
      (srcLookup r ⟨"query", k⟩).isSome = true) := by
  refine ⟨?_, ?_, ?_⟩
  · intro vs h
    simp [resolve, h]
  · intro h
    simp [resolve, h]
  · intro k v hm
    have hv : v ∈ lookupAll r.queryParams k := by
      rw [lookupAll, List.mem_filterMap]
      exact ⟨(k, v), hm, by simp⟩
    have hne : lookupAll r.queryParams k ≠ [] := List.ne_nil_of_mem hv
    have hie : (lookupAll r.queryParams k).isEmpty = false := by
      cases hcase : lookupAll r.queryParams k with
      | nil => exact absurd hcase hne
      | cons a l => rfl
    have h1 : (Directive.mk "query" k).kind = "query" := rfl
    have h2 : (Directive.mk "query" k).key = k := rfl
    unfold srcLookup
    rw [h1, h2, if_neg (by decide), if_pos rfl]
    simp [hie]

/-- C5 witness: with declaration `query=token;header=X-Token`, a
present-but-empty `?token=` resolves to the empty query value and the
header is not consulted; with the query parameter entirely absent,
resolution falls through to the remaining sources and yields the header
value. -/
theorem claim_C5_first_source_wins_witness :
    resolve reqEmptyTok [⟨"query", "token"⟩, ⟨"header", "X-Token"⟩]
        = some [""] ∧
      resolve reqNoTok [⟨"query", "token"⟩, ⟨"header", "X-Token"⟩]
        = resolve reqNoTok [⟨"header", "X-Token"⟩] ∧
      resolve reqNoTok [⟨"header", "X-Token"⟩] = some ["secret"] := by
  refine ⟨?_, ?_, by decide⟩
  · exact (claim_C5_first_source_wins reqEmptyTok ⟨"query", "token"⟩
      [⟨"header", "X-Token"⟩]).1 [""] (by decide)
  · exact (claim_C5_first_source_wins reqNoTok ⟨"query", "token"⟩
      [⟨"header", "X-Token"⟩]).2.1 (by decide)

/-- C6: for every shape whose field declarations are malformed (a field
with an unrecognized source kind), pipeline construction fails loudly
with the construction-time panic; for every well-formed shape it succeeds
and yields the per-request handler — so a malformed declaration is never
deferred to a per-request error. -/
theorem claim_C6_construction_fails_loudly (s : ShapeDecl) (o : Options) :
    (shapeWellFormed s = false → MiddlewareNew s o =
      .error "valmid: failed to create httpin core: unknown directive") ∧
    (shapeWellFormed s = true →
      MiddlewareNew s o = .ok fun cfg r => serve s o cfg r) := by
  constructor <;> intro h <;> simp [MiddlewareNew, httpinNew, h]

/-- C6 witness: the test suite's `BadInput` shape (source kind `unknown`)
makes construction panic with the source's panic message. -/
theorem claim_C6_construction_fails_loudly_witness :
    MiddlewareNew badShape ⟨none⟩ =
      .error "valmid: failed to create httpin core: unknown directive" :=
  (claim_C6_construction_fails_loudly badShape ⟨none⟩).1 (by decide)

/-- C7: for every request against which the pipeline was never run
(nothing attached to the context), or was run only for a different input
shape (the attached identity differs), `Get` returns the zero value of
the shape rather than failing. -/
theorem claim_C7_get_zero_value (s : ShapeDecl) (r : Request) :
    (r.ctx = none → Get s r = zeroInstance s) ∧
    (∀ n v, r.ctx = some (n, v) → n ≠ s.name → Get s r = zeroInstance s) := by
  constructor
  · intro h
    exact Get_ctx_none h
  · intro n v h hne
    simp [Get, h, hne]

/-- C7 witness: a bare GET request with no middleware run yields the
zero-valued shape, and a request whose attachment is of another shape
does too. -/
theorem claim_C7_get_zero_value_witness :
    Get testShape testReq = zeroInstance testShape ∧
      Get testShape reqOtherShape = zeroInstance testShape := by
  constructor
  · exact (claim_C7_get_zero_value testShape testReq).1 rfl
  · exact (claim_C7_get_zero_value testShape reqOtherShape).2 "Other"
      [("X", .vInt 1)] rfl (by decide)

/-- C8: invoking the Result Accessor twice on the same post-pipeline
request returns equal instances both times: the read leaves the request
unchanged, and a second read of the returned request yields the same
instance. -/
theorem claim_C8_get_idempotent (s : ShapeDecl) (r : Request) :
    (GetM s r).2 = r ∧ (GetM s (GetM s r).2).1 = (GetM s r).1 :=
  ⟨rfl, rfl⟩

/-- C10: for every request with an empty context slot on which binding or
validation fails, the middleware attaches nothing: the error handler
receives the original request, and `Get` on it returns the zero value of
the shape, exactly as if the pipeline had never run. -/
theorem claim_C10_failure_attaches_nothing (s : ShapeDecl) (o : Options)
    (cfg : Config) (r : Request) (h0 : r.ctx = none) :
    (∀ e, assemble s r = .error e →
      serve s o cfg r = [.errCall (handleError o cfg) r (.binding e)] ∧
        Get s r = zeroInstance s) ∧
    (∀ inst, assemble s r = .ok inst → validate s inst ≠ [] →
      serve s o cfg r =
          [.errCall (handleError o cfg) r (.validation (validate s inst))] ∧
        Get s r = zeroInstance s) := by
  constructor
  · intro e he
    exact ⟨serve_decode_error he, Get_ctx_none h0⟩
  · intro inst hi hv
    exact ⟨serve_validation_error hi hv, Get_ctx_none h0⟩

/-- C10 witness: the malformed-body request fails binding, the error
handler gets the original request, and `Get` on that request is the zero
instance. -/
theorem claim_C10_failure_attaches_nothing_witness :
    serve testShape ⟨none⟩ ⟨0⟩ reqMalformed
        = [.errCall 0 reqMalformed (.binding (.malformedBody "Body"))] ∧
      Get testShape reqMalformed = zeroInstance testShape :=
  (claim_C10_failure_attaches_nothing testShape ⟨none⟩ ⟨0⟩ reqMalformed
    rfl).1 (.malformedBody "Body") (by decide)

end Valmid
